import Mathlib

/-!
Shallow embedding of the Velocity Installer core (Go sources:
`github_downloader.go`, `self_updater.go`, `constants.go`, and the unnamed
variant of the downloader that installs `desktop.asar`).

Go strings are modelled as `List Char` (the relevant string operations are
ASCII-only here, so byte indices and char indices coincide).  Fallible
operations are modelled with explicit outcome parameters (an "environment"
records which I/O steps succeed or fail and what the network returns), and
the package-level mutable variables become fields of explicit state records
threaded through the functions.
-/

/-- Go `string`, modelled as a list of characters. -/
abbrev Str := List Char

/-- The space character, `" "` in `strings.LastIndex(data.Name, " ")`. -/
def spaceChar : Char := Char.ofNat 32

/-- Go `strings.ToLower` restricted to ASCII (all names and tokens the
installer compares are ASCII). -/
def lowerStr (s : Str) : Str := s.map Char.toLower

/-- Go `strings.HasSuffix`. -/
def hasSuffixStr (s suf : Str) : Bool := suf.isSuffixOf s

/-- Go `strings.Contains`: some tail of `s` starts with `sub`. -/
def containsSub (s sub : Str) : Bool := s.tails.any (fun t => sub.isPrefixOf t)

/-- Go `strings.LastIndex(s, c)` for a single-character needle:
index of the last occurrence of `c`, `-1` when absent. -/
def lastIndexCh : Str → Char → Int
  | [], _ => -1
  | x :: xs, c =>
    let r := lastIndexCh xs c
    if r ≥ 0 then r + 1
    else if x = c then 0 else -1

/-- The decimal digit character for `n % 10`. -/
def digitChar (n : Nat) : Char := Char.ofNat (48 + n % 10)

/-- Go `strconv.FormatInt(n, 10)` for non-negative `n`: the canonical
decimal rendering of `n`. -/
def natToDecimal (n : Nat) : Str :=
  if _h : n < 10 then [digitChar n]
  else natToDecimal (n / 10) ++ [digitChar (n % 10)]
decreasing_by exact Nat.div_lt_self (by omega) (by omega)

/-- One release asset: `{name, browser_download_url}` (github_downloader.go). -/
structure AssetD where
  name : Str
  downloadURL : Str
deriving DecidableEq, Repr

/-- Decoded release metadata: `GithubRelease` (github_downloader.go). -/
structure GithubRelease where
  name : Str
  tagName : Str
  assets : List AssetD
deriving DecidableEq, Repr

/-- Initial value of the global `InstalledHash` (`var InstalledHash = "None"`). -/
def initInstalledHash : Str := "None".data

/-- Initial value of the global `LatestHash` (`var LatestHash = "Unknown"`). -/
def initLatestHash : Str := "Unknown".data

/-- The up-to-date comparison performed by the code
(`Ternary(LatestHash == InstalledHash, "up to date!", "outdated!")`,
github_downloader.go line 100): exact string equality. -/
def upToDate (installedHash latestHash : Str) : Bool :=
  latestHash == installedHash

/-- Modelled from the spec: `isOutdated()` of the Version Tracker is not a
named function in the sources; the spec defines it as "true unless
`isDevInstall` is set or `installedIdentifier == latestIdentifier`", where
the equality is the comparison at github_downloader.go line 100. -/
def isOutdated (isDevInstall : Bool) (installedHash latestHash : Str) : Bool :=
  !isDevInstall && !(upToDate installedHash latestHash)

/-- `LatestHash` derivation (github_downloader.go lines 96-97):
`i := strings.LastIndex(data.Name, " ") + 1; LatestHash = data.Name[i:]`. -/
def hashFromName (name : Str) : Str :=
  name.drop (lastIndexCh name spaceChar + 1).toNat

/-- The fields of shared state the background fetch task touches:
`LatestHash`, `ReleaseData` and `GithubError`. -/
structure FetchState where
  latestHash : Str
  releaseData : Option GithubRelease
  githubError : Option Str
deriving DecidableEq, Repr

/-- The body of the goroutine in `InitGithubDownloader`
(github_downloader.go lines 83-101): on a fetch/decode error it records the
error and leaves `LatestHash` untouched; on success it stores the release
and derives `LatestHash` from the release name.  The deferred
`GithubDoneChan <- GithubError == nil` is modelled as the returned list of
signals sent on the channel during the run. -/
def githubFetchTask (st : FetchState) (result : Except Str GithubRelease) :
    FetchState × List Bool :=
  match result with
  | .error e =>
    let st' : FetchState := { st with githubError := some e }
    (st', [st'.githubError.isNone])
  | .ok data =>
    let st' : FetchState :=
      { st with releaseData := some data, latestHash := hashFromName data.name }
    (st', [st'.githubError.isNone])

/-- Per-asset selection condition of `installLatestBuilds`
(github_downloader.go lines 148-162): skip names ending in `.legal.txt`
(lowercased), then require one of the inclusion substrings.  The literal
`"velocitydesktopMain"` is reproduced exactly as it appears in the source
(capital `M`). -/
def selectAsset (name : Str) : Bool :=
  let lowerName := lowerStr name
  if hasSuffixStr lowerName ".legal.txt".data then false
  else
    containsSub lowerName "preload".data ||
    containsSub lowerName "patcher".data ||
    containsSub lowerName "velocitydesktopMain".data ||
    containsSub lowerName "velocitydesktoprenderer".data ||
    (containsSub lowerName "renderer".data &&
      !containsSub lowerName "velocitydesktop".data)

/-- The subset of a release's assets the download loop processes, in order. -/
def selectAssets (assets : List AssetD) : List AssetD :=
  assets.filter (fun a => selectAsset a.name)

/-- The shared state read and written by `installLatestBuilds`:
`InstalledHash`, `LatestHash`, `IsDevInstall` and `ReleaseData`. -/
structure DState where
  installedHash : Str
  latestHash : Str
  isDevInstall : Bool
  releaseData : GithubRelease
deriving DecidableEq, Repr

/-- Errors of the download path, one constructor per distinct `errors.New` /
returned error in the sources.  `lengthMismatch` models the
"Unexpected end of input. Content-Length was ..." error of the
`desktop.asar` variant. -/
inductive DlErr
  | noAsarLink
  | httpErr
  | ioErr
  | lengthMismatch
deriving DecidableEq, Repr

/-- The `for _, ass := range ReleaseData.Assets { if ass.Name == "desktop.asar" ... }`
search of the unnamed downloader variant. -/
def findAsarUrl : List AssetD → Option Str
  | [] => none
  | a :: rest =>
    if a.name == "desktop.asar".data then some a.downloadURL else findAsarUrl rest

/-- I/O outcomes for one run of the `desktop.asar` download:
whether `http.Get` succeeds with a good status, whether `os.OpenFile`
succeeds, the result of `io.Copy` (`none` = copy error, `some n` = `n`
bytes copied), and the literal `Content-Length` response header. -/
structure AsarEnv where
  httpOk : Bool
  openOk : Bool
  copyResult : Option Nat
  contentLength : Str
deriving DecidableEq, Repr

/-- `installLatestBuilds` of the unnamed variant (src/unnamed/part_000):
finds the `desktop.asar` asset, downloads it, and compares
`strconv.FormatInt(read, 10)` against the `Content-Length` header; only on
the success path does it set `InstalledHash = LatestHash`. -/
def installLatestBuildsAsar (st : DState) (env : AsarEnv) :
    DState × Option DlErr :=
  if st.isDevInstall then (st, none)
  else
    match findAsarUrl st.releaseData.assets with
    | none => (st, some .noAsarLink)
    | some _ =>
      if !env.httpOk then (st, some .httpErr)
      else if !env.openOk then (st, some .ioErr)
      else
        match env.copyResult with
        | none => (st, some .ioErr)
        | some read =>
          if natToDecimal read == env.contentLength then
            ({ st with installedHash := st.latestHash }, none)
          else (st, some .lengthMismatch)

/-- I/O outcomes for downloading one selected asset in the multi-asset
variant (src/github_downloader.go): `http.Get`, `os.OpenFile`, `io.Copy`.
The `Content-Length` header is part of the response but this variant never
reads it. -/
structure AssetOutcome where
  httpOk : Bool
  openOk : Bool
  copyResult : Option Nat
  contentLength : Str
deriving DecidableEq, Repr

/-- The asset loop of the multi-asset `installLatestBuilds`
(github_downloader.go lines 145-192): assets are processed in order; a
selected asset consumes the next I/O outcome; the first failure aborts the
loop.  No byte-count verification is performed. -/
def installAssetsLoop : List AssetD → (Nat → AssetOutcome) → Nat → Option DlErr
  | [], _, _ => none
  | a :: rest, env, k =>
    if selectAsset a.name then
      let o := env k
      if !o.httpOk then some .httpErr
      else if !o.openOk then some .ioErr
      else
        match o.copyResult with
        | none => some .ioErr
        | some _ => installAssetsLoop rest env (k + 1)
    else installAssetsLoop rest env k

/-- `installLatestBuilds` of src/github_downloader.go: creates parent
directories, downloads every selected asset, and on full success sets
`InstalledHash = LatestHash` as the final step. -/
def installLatestBuildsAssets (st : DState) (mkdirOk : Bool)
    (env : Nat → AssetOutcome) : DState × Option DlErr :=
  if st.isDevInstall then (st, none)
  else if !mkdirOk then (st, some .ioErr)
  else
    match installAssetsLoop st.releaseData.assets env 0 with
    | some e => (st, some e)
    | none => ({ st with installedHash := st.latestHash }, none)

/-- Modelled from the spec: `buildinfo.VersionUnknown`, the sentinel value
an installer binary carries when it is not a release build (the `buildinfo`
package is not part of these sources; the spec calls it the
"unknown" identifier). -/
def VersionUnknown : Str := "unknown".data

/-- The `init` of self_updater.go (lines 24-46): with an unknown embedded
tag the self-update check is never launched and `IsSelfOutdated` keeps its
initial `false`; otherwise the check fetches the installer release feed,
reports `false` on the done channel on failure, and on success sets
`IsSelfOutdated = res.TagName != buildinfo.InstallerTag` and reports
`true`.  Returns the final `IsSelfOutdated` and the list of signals sent on
`SelfUpdateCheckDoneChan`. -/
def selfUpdaterInit (installerTag : Str) (fetch : Except Str GithubRelease) :
    Bool × List Bool :=
  if installerTag == VersionUnknown then (false, [])
  else
    match fetch with
    | .error _ => (false, [false])
    | .ok res => (!(res.tagName == installerTag), [true])

/-- `CanUpdateSelf` (self_updater.go lines 63-65):
`IsSelfOutdated && runtime.GOOS != "darwin"`. -/
def CanUpdateSelf (isSelfOutdated : Bool) (goos : Str) : Bool :=
  isSelfOutdated && !(goos == "darwin".data)

/-- `GetInstallerDownloadLink` (self_updater.go lines 48-61); `uiCli`
models `buildinfo.UiType == buildinfo.UiTypeCli`. -/
def GetInstallerDownloadLink (goos : Str) (uiCli : Bool) : Str :=
  let baseUrl := "https://github.com/Velocitcy/Installer/releases/latest/download/".data
  if goos == "windows".data then
    baseUrl ++ (if uiCli then "VelocityInstallerCli.exe".data
                else "VelocityInstaller.exe".data)
  else if goos == "darwin".data then baseUrl ++ "VelocityInstaller.MacOS.zip".data
  else if goos == "linux".data then baseUrl ++ "VelocityInstallerCli-linux".data
  else []

/-- Which executable files exist at the end of an `UpdateSelf` run:
the original executable at its own path, the updated executable at that
path, the original at the `.old`-suffixed path, and the staging temp file. -/
structure SelfFs where
  origAtPath : Bool
  updAtPath : Bool
  origAtOld : Bool
  tmpFile : Bool
deriving DecidableEq, Repr

/-- The filesystem before `UpdateSelf` runs: only the running executable. -/
def initialSelfFs : SelfFs :=
  { origAtPath := true, updAtPath := false, origAtOld := false, tmpFile := false }

/-- Errors of `UpdateSelf`, one constructor per distinct return site. -/
inductive UpdErr
  | stateError
  | linkError
  | exeErr
  | httpErr
  | tmpErr
  | chmodErr
  | copyErr
  | closeErr
  | removeRenameErr
  | replaceErr
deriving DecidableEq, Repr

/-- Inputs and I/O outcomes for one `UpdateSelf` run: the update-available
flag, the platform, the UI variant, and whether each fallible step fails. -/
structure UpdateEnv where
  isSelfOutdated : Bool
  goos : Str
  uiCli : Bool
  exePathFails : Bool
  httpFails : Bool
  tmpCreateFails : Bool
  chmodFails : Bool
  copyFails : Bool
  closeFails : Bool
  removeFails : Bool
  renameOldFails : Bool
  renameTmpFails : Bool
deriving DecidableEq, Repr

/-- Result of an `UpdateSelf` run: final filesystem, returned error, and
whether the download request (`http.Get`) was issued. -/
structure UpdateResult where
  fs : SelfFs
  err : Option UpdErr
  downloaded : Bool
deriving DecidableEq, Repr

/-- `UpdateSelf` (self_updater.go lines 67-124), step for step: guard via
`CanUpdateSelf`; resolve the download link; resolve the own executable
path; `http.Get`; stage the payload into a same-directory temp file (with a
deferred `tmp.Close(); os.Remove(tmp.Name())` that runs on every exit from
that point on); chmod, copy, close; then `os.Remove(ownExePath)`, falling
back to `os.Rename(ownExePath, ownExePath+".old")` on failure; finally
`os.Rename(tmp.Name(), ownExePath)`. -/
def UpdateSelf (env : UpdateEnv) : UpdateResult :=
  if !(CanUpdateSelf env.isSelfOutdated env.goos) then
    ⟨initialSelfFs, some .stateError, false⟩
  else if GetInstallerDownloadLink env.goos env.uiCli == [] then
    ⟨initialSelfFs, some .linkError, false⟩
  else if env.exePathFails then ⟨initialSelfFs, some .exeErr, false⟩
  else if env.httpFails then ⟨initialSelfFs, some .httpErr, true⟩
  else if env.tmpCreateFails then ⟨initialSelfFs, some .tmpErr, true⟩
  else
    let fs1 : SelfFs := { initialSelfFs with tmpFile := true }
    if env.chmodFails then ⟨{ fs1 with tmpFile := false }, some .chmodErr, true⟩
    else if env.copyFails then ⟨{ fs1 with tmpFile := false }, some .copyErr, true⟩
    else if env.closeFails then ⟨{ fs1 with tmpFile := false }, some .closeErr, true⟩
    else if !env.removeFails then
      let fs2 : SelfFs := { fs1 with origAtPath := false }
      if env.renameTmpFails then
        ⟨{ fs2 with tmpFile := false }, some .replaceErr, true⟩
      else ⟨{ fs2 with tmpFile := false, updAtPath := true }, none, true⟩
    else if env.renameOldFails then
      ⟨{ fs1 with tmpFile := false }, some .removeRenameErr, true⟩
    else
      let fs2 : SelfFs := { fs1 with origAtPath := false, origAtOld := true }
      if env.renameTmpFails then
        ⟨{ fs2 with tmpFile := false }, some .replaceErr, true⟩
      else ⟨{ fs2 with tmpFile := false, updAtPath := true }, none, true⟩

/-- Result of one `os.Remove(ownExePath + ".old")` attempt, as the retry
loop of `DeleteOldExecutable` distinguishes them: success, failure with
`os.ErrNotExist`, or any other failure. -/
inductive RmOutcome
  | ok
  | notExist
  | otherErr
deriving DecidableEq, Repr

/-- The retry loop of `DeleteOldExecutable` (self_updater.go lines 131-141)
with `fuel` iterations left and `i` attempts already made: performs
`os.Remove` attempts until one succeeds or fails with not-exist, or the
loop bound is exhausted.  Returns the total number of attempts made. -/
def deleteOldLoop (f : Nat → RmOutcome) : Nat → Nat → Nat
  | i, 0 => i
  | i, fuel + 1 =>
    match f i with
    | .otherErr => deleteOldLoop f (i + 1) fuel
    | _ => i + 1

/-- `DeleteOldExecutable` (self_updater.go lines 126-142): if resolving the
own executable path fails it returns at once (0 attempts); otherwise it
runs the bounded retry loop (`for attempts := 0; attempts < 10; ...`).
The function has no return value in the source; the model returns the
number of `os.Remove` attempts performed, and the absence of an error
component reflects that no error is ever escalated. -/
def DeleteOldExecutable (exePathOk : Bool) (f : Nat → RmOutcome) : Nat :=
  if exePathOk then deleteOldLoop f 0 10 else 0

/-! ### Helper lemmas -/

theorem lastIndexCh_not_mem {s : Str} {c : Char} (h : c ∉ s) :
    lastIndexCh s c = -1 := by
  induction s with
  | nil => rfl
  | cons x xs ih =>
    simp only [List.mem_cons, not_or] at h
    have hx : ¬ (x = c) := fun hh => h.1 hh.symm
    simp [lastIndexCh, ih h.2, hx]

theorem lastIndexCh_append (pre suf : Str) (c : Char) (h : c ∉ suf) :
    lastIndexCh (pre ++ c :: suf) c = pre.length := by
  induction pre with
  | nil => simp [lastIndexCh, lastIndexCh_not_mem h]
  | cons x xs ih =>
    simp only [List.cons_append, lastIndexCh, List.append_eq]
    rw [ih]
    have h0 : (0 : Int) ≤ (xs.length : Int) := by positivity
    rw [if_pos h0]
    simp

theorem natToDecimal_eq (n : Nat) : natToDecimal n =
    if n < 10 then [digitChar n]
    else natToDecimal (n / 10) ++ [digitChar (n % 10)] := by
  rw [natToDecimal]
  split <;> simp_all

theorem natToDecimal_ne_nil (n : Nat) : natToDecimal n ≠ [] := by
  rw [natToDecimal_eq]
  split <;> simp

theorem digitChar_inj : ∀ a, a < 10 → ∀ b, b < 10 →
    digitChar a = digitChar b → a = b := by decide

theorem natToDecimal_inj : ∀ m n : Nat, natToDecimal m = natToDecimal n → m = n := by
  intro m
  induction m using Nat.strong_induction_on with
  | _ m ih =>
    intro n h
    rw [natToDecimal_eq m, natToDecimal_eq n] at h
    by_cases hm : m < 10 <;> by_cases hn : n < 10 <;> simp only [if_pos, if_neg, hm, hn, if_true, if_false] at h
    · simp only [List.cons.injEq, and_true] at h
      exact digitChar_inj m hm n hn h
    · rcases hnil : natToDecimal (n / 10) with _ | ⟨a, as⟩
      · exact absurd hnil (natToDecimal_ne_nil (n / 10))
      · rw [hnil] at h
        simp at h
    · rcases hnil : natToDecimal (m / 10) with _ | ⟨a, as⟩
      · exact absurd hnil (natToDecimal_ne_nil (m / 10))
      · rw [hnil] at h
        simp at h
    · have hp := List.append_inj' h rfl
      have hdiv : m / 10 = n / 10 :=
        ih (m / 10) (Nat.div_lt_self (by omega) (by omega)) (n / 10) hp.1
      have hd : digitChar (m % 10) = digitChar (n % 10) := by
        have h2 := hp.2
        simp only [List.cons.injEq, and_true] at h2
        exact h2
      have hmod : m % 10 = n % 10 :=
        digitChar_inj (m % 10) (Nat.mod_lt _ (by omega)) (n % 10)
          (Nat.mod_lt _ (by omega)) hd
      omega

theorem deleteOldLoop_le (f : Nat → RmOutcome) :
    ∀ fuel i, deleteOldLoop f i fuel ≤ i + fuel := by
  intro fuel
  induction fuel with
  | zero => intro i; simp [deleteOldLoop]
  | succ k ih =>
    intro i
    cases hf : f i <;> simp only [deleteOldLoop, hf]
    · omega
    · omega
    · have := ih (i + 1)
      omega

theorem deleteOldLoop_early (f : Nat → RmOutcome) :
    ∀ fuel i j, i ≤ j → j + 1 < deleteOldLoop f i fuel → f j = .otherErr := by
  intro fuel
  induction fuel with
  | zero =>
    intro i j hij hj
    simp only [deleteOldLoop] at hj
    omega
  | succ k ih =>
    intro i j hij hj
    cases hf : f i <;> simp only [deleteOldLoop, hf] at hj
    · omega
    · omega
    · by_cases hji : j = i
      · rw [hji]; exact hf
      · exact ih (i + 1) j (by omega) hj

theorem deleteOldLoop_stop (f : Nat → RmOutcome) :
    ∀ fuel i j, i ≤ j → j < i + fuel →
      (∀ k, i ≤ k → k < j → f k = .otherErr) → f j ≠ .otherErr →
      deleteOldLoop f i fuel = j + 1 := by
  intro fuel
  induction fuel with
  | zero => intro i j hij hj _ _; omega
  | succ k ih =>
    intro i j hij hj hpre hj2
    by_cases hji : i = j
    · subst hji
      cases hf : f i <;> simp only [deleteOldLoop, hf]
      exact absurd hf hj2
    · have hfi : f i = .otherErr := hpre i le_rfl (by omega)
      simp only [deleteOldLoop, hfi]
      exact ih (i + 1) j (by omega) (by omega)
        (fun k hk1 hk2 => hpre k (by omega) hk2) hj2

theorem deleteOldLoop_exhaust (f : Nat → RmOutcome) :
    ∀ fuel i, (∀ k, i ≤ k → k < i + fuel → f k = .otherErr) →
      deleteOldLoop f i fuel = i + fuel := by
  intro fuel
  induction fuel with
  | zero => intro i _; simp [deleteOldLoop]
  | succ k ih =>
    intro i hall
    have hfi : f i = .otherErr := hall i le_rfl (by omega)
    simp only [deleteOldLoop, hfi]
    have := ih (i + 1) (fun k hk1 hk2 => hall k (by omega) (by omega))
    omega

/-! ### Claim theorems -/

/-- C3: the selector checks the lowercased asset name for the literal
`"velocitydesktopMain"` (capital `M`), which no lowercased name can
contain; an asset whose name matches only the platform main-bundle rule —
contrary to the code's own comment "Only download: ... velocityDesktopMain
..." — is therefore never selected, and for a release consisting of just
that asset the download loop selects nothing. -/
theorem mainBundle_asset_not_selected :
    selectAsset "velocityDesktopMain.js".data = false ∧
    selectAssets [⟨"velocityDesktopMain.js".data, "u".data⟩] = [] ∧
    lowerStr "velocityDesktopMain.js".data = "velocitydesktopmain.js".data ∧
    hasSuffixStr (lowerStr "velocityDesktopMain.js".data) ".legal.txt".data = false := by
  refine ⟨by decide, by decide, by decide, by decide⟩

/-- C4 counterexample: in the initial state the sentinels are
`"None"` (installed) and `"Unknown"` (latest); they are not equal, so with
dev-install off the install is reported as outdated, not as up to date. -/
theorem initial_sentinels_report_outdated :
    initInstalledHash ≠ initLatestHash ∧
    isOutdated false initInstalledHash initLatestHash = true := by
  refine ⟨by decide, by decide⟩

/-- C4 (amended): with dev-install off, `isOutdated` is false exactly when
the installed identifier equals the latest identifier under exact string
equality; and in the initial state, where the sentinels `"None"` and
`"Unknown"` differ, the install is reported as outdated. -/
theorem isOutdated_iff_eq_and_initial_outdated :
    (∀ installed latest : Str,
      (isOutdated false installed latest = false ↔ installed = latest)) ∧
    isOutdated false initInstalledHash initLatestHash = true := by
  constructor
  · intro i l
    have h0 : isOutdated false i l = !(l == i) := rfl
    rw [h0, Bool.not_eq_false', beq_iff_eq]
    exact eq_comm
  · decide

/-- C5: for a release display name with at least one space — written as
`pre ++ " " ++ suf` with no space in `suf` — the derived latest identifier
is exactly the substring strictly after the last space. -/
theorem latestHash_after_last_space (pre suf : Str) (h : spaceChar ∉ suf) :
    hashFromName (pre ++ spaceChar :: suf) = suf := by
  unfold hashFromName
  rw [lastIndexCh_append pre suf spaceChar h]
  have h1 : ((pre.length : Int) + 1).toNat = pre.length + 1 := by omega
  rw [h1]
  have h2 : pre ++ spaceChar :: suf = (pre ++ [spaceChar]) ++ suf := by simp
  rw [h2]
  have h3 : pre.length + 1 = (pre ++ [spaceChar]).length := by simp
  rw [h3, List.drop_left]

/-- C5 witness: `"Velocity Build abc123"` yields identifier `"abc123"`. -/
theorem latestHash_after_last_space_witness :
    hashFromName "Velocity Build abc123".data = "abc123".data := by
  have hd : "Velocity Build abc123".data =
      "Velocity Build".data ++ spaceChar :: "abc123".data := by decide
  rw [hd]
  exact latestHash_after_last_space "Velocity Build".data "abc123".data (by decide)

/-- C6: one run of the background fetch task, starting (as at process
start) with no recorded error: on a fetch/decode failure it leaves
`LatestHash` at its previous value, records the error, and sends `false`
on the done channel; on success it assigns `LatestHash` from the release
name and sends `true`; in both cases exactly one boolean is sent. -/
theorem githubFetchTask_spec (st : FetchState) (res : Except Str GithubRelease)
    (h : st.githubError = none) :
    (∀ e, res = .error e →
      githubFetchTask st res = ({ st with githubError := some e }, [false])) ∧
    (∀ d, res = .ok d →
      githubFetchTask st res =
        ({ st with releaseData := some d, latestHash := hashFromName d.name },
          [true])) ∧
    (githubFetchTask st res).2.length = 1 := by
  refine ⟨?_, ?_, ?_⟩
  · intro e he
    subst he
    simp [githubFetchTask]
  · intro d hd
    subst hd
    simp [githubFetchTask, h]
  · cases res <;> simp [githubFetchTask]

/-- C6 witness: a successful fetch of a release named
`"Velocity abc123"` sets `LatestHash` and signals `true` once. -/
theorem githubFetchTask_spec_witness :
    githubFetchTask ⟨initLatestHash, none, none⟩
        (.ok ⟨"Velocity abc123".data, "v1".data, []⟩) =
      ({ latestHash := hashFromName "Velocity abc123".data,
         releaseData := some ⟨"Velocity abc123".data, "v1".data, []⟩,
         githubError := none }, [true]) := by
  exact (githubFetchTask_spec ⟨initLatestHash, none, none⟩
    (.ok ⟨"Velocity abc123".data, "v1".data, []⟩) rfl).2.1
    ⟨"Velocity abc123".data, "v1".data, []⟩ rfl

/-- C7: the self-update check of `init` in self_updater.go.  With the
unknown-version sentinel as embedded tag no check runs: `IsSelfOutdated`
stays `false` and nothing is sent on the done channel.  With a real tag, a
fetch failure leaves `IsSelfOutdated` false and signals `false`; a
successful fetch sets `IsSelfOutdated` true exactly when the fetched tag
differs from the embedded tag, and signals `true`. -/
theorem selfUpdaterInit_spec (tag : Str) (fetch : Except Str GithubRelease) :
    (tag = VersionUnknown → selfUpdaterInit tag fetch = (false, [])) ∧
    (tag ≠ VersionUnknown →
      (∀ e, fetch = .error e → selfUpdaterInit tag fetch = (false, [false])) ∧
      (∀ r, fetch = .ok r →
        ((selfUpdaterInit tag fetch).1 = true ↔ r.tagName ≠ tag) ∧
        (selfUpdaterInit tag fetch).2 = [true])) := by
  constructor
  · intro h
    subst h
    simp [selfUpdaterInit]
  · intro h
    have hb : (tag == VersionUnknown) = false := beq_eq_false_iff_ne.mpr h
    refine ⟨?_, ?_⟩
    · intro e he
      subst he
      simp [selfUpdaterInit, hb]
    · intro r hr
      subst hr
      simp [selfUpdaterInit, hb]

/-- C7 witness: embedded tag `"v1.0.0"`, fetched tag `"v1.0.1"`:
the check runs, finds the build outdated, and signals `true`. -/
theorem selfUpdaterInit_spec_witness :
    (selfUpdaterInit "v1.0.0".data
        (.ok ⟨[], "v1.0.1".data, []⟩)).1 = true ∧
    (selfUpdaterInit "v1.0.0".data
        (.ok ⟨[], "v1.0.1".data, []⟩)).2 = [true] := by
  have h := (selfUpdaterInit_spec "v1.0.0".data
    (.ok ⟨[], "v1.0.1".data, []⟩)).2 (by decide)
  have h2 := h.2 ⟨[], "v1.0.1".data, []⟩ rfl
  exact ⟨h2.1.mpr (by decide), h2.2⟩

/-- C8: `CanUpdateSelf` is false on darwin regardless of the outdated
flag (the policy-excluded platform), it equals "outdated and not darwin"
in general, and whenever it is false `UpdateSelf` returns the state error
at once, with the filesystem untouched and no download issued. -/
theorem canUpdateSelf_policy (env : UpdateEnv) :
    (∀ o : Bool, CanUpdateSelf o "darwin".data = false) ∧
    (∀ o : Bool, ∀ g : Str,
      CanUpdateSelf o g = (o && !(g == "darwin".data))) ∧
    (CanUpdateSelf env.isSelfOutdated env.goos = false →
      UpdateSelf env = ⟨initialSelfFs, some .stateError, false⟩) := by
  refine ⟨by decide, fun o g => rfl, ?_⟩
  intro h
  simp [UpdateSelf, h]

/-- C8 witness: on darwin with an update available, `CanUpdateSelf` is
false and `UpdateSelf` fails with the state error, touching nothing. -/
theorem canUpdateSelf_policy_witness :
    CanUpdateSelf true "darwin".data = false ∧
    UpdateSelf ⟨true, "darwin".data, false, false, false, false, false,
        false, false, false, false, false⟩ =
      ⟨initialSelfFs, some .stateError, false⟩ := by
  have h := canUpdateSelf_policy ⟨true, "darwin".data, false, false, false,
    false, false, false, false, false, false, false⟩
  exact ⟨h.1 true, h.2.2 (h.1 true)⟩

/-- C9: `DeleteOldExecutable` performs at most 10 removal attempts; every
attempt before the last one failed with an error other than not-exist
(so it stops as soon as an attempt succeeds or the file does not exist —
not-exist is terminal, not retried); if the first non-`otherErr` outcome
occurs at attempt `j < 10` it performs exactly `j + 1` attempts; and when
all 10 attempts fail it still returns after exactly 10 attempts — the
model's return type carries no error, matching the source function, which
returns nothing and never escalates. -/
theorem deleteOldExecutable_spec (exeOk : Bool) (f : Nat → RmOutcome) :
    DeleteOldExecutable exeOk f ≤ 10 ∧
    (∀ j, j + 1 < DeleteOldExecutable exeOk f → f j = .otherErr) ∧
    (∀ j, j < 10 → f j ≠ .otherErr → (∀ k, k < j → f k = .otherErr) →
      exeOk = true → DeleteOldExecutable exeOk f = j + 1) ∧
    ((∀ k, k < 10 → f k = .otherErr) → exeOk = true →
      DeleteOldExecutable exeOk f = 10) := by
  refine ⟨?_, ?_, ?_, ?_⟩
  · cases exeOk <;> simp [DeleteOldExecutable]
    exact deleteOldLoop_le f 10 0
  · intro j hj
    cases hex : exeOk
    · rw [hex] at hj
      simp [DeleteOldExecutable] at hj
    · rw [hex] at hj
      simp only [DeleteOldExecutable, if_true] at hj
      exact deleteOldLoop_early f 10 0 j (Nat.zero_le j) hj
  · intro j hj hfj hpre hex
    subst hex
    simp only [DeleteOldExecutable, if_true]
    exact deleteOldLoop_stop f 10 0 j (Nat.zero_le j) (by omega)
      (fun k _ hk => hpre k hk) hfj
  · intro hall hex
    subst hex
    simp only [DeleteOldExecutable, if_true]
    exact deleteOldLoop_exhaust f 10 0 (fun k _ hk => hall k (by omega))

/-- C9 witness: the `.old` file turns out not to exist on the third
attempt: exactly 3 attempts are made and the loop stops there. -/
theorem deleteOldExecutable_spec_witness :
    DeleteOldExecutable true
      (fun i => if i = 2 then .notExist else .otherErr) = 3 := by
  exact (deleteOldExecutable_spec true
      (fun i => if i = 2 then .notExist else .otherErr)).2.2.1 2
    (by decide) (by decide)
    (fun k hk => by
      interval_cases k <;> decide) rfl

theorem installAssets_result (st : DState) (mkOk : Bool)
    (envA : Nat → AssetOutcome) (hdev : st.isDevInstall = false) :
    (∃ e, installLatestBuildsAssets st mkOk envA = (st, some e)) ∨
    installLatestBuildsAssets st mkOk envA =
      ({ st with installedHash := st.latestHash }, none) := by
  simp only [installLatestBuildsAssets, hdev, Bool.false_eq_true, if_false]
  repeat' split
  all_goals first
    | (left; exact ⟨_, rfl⟩)
    | (right; rfl)

theorem installAsar_result (st : DState) (envB : AsarEnv)
    (hdev : st.isDevInstall = false) :
    (∃ e, installLatestBuildsAsar st envB = (st, some e)) ∨
    installLatestBuildsAsar st envB =
      ({ st with installedHash := st.latestHash }, none) := by
  simp only [installLatestBuildsAsar, hdev, Bool.false_eq_true, if_false]
  repeat' split
  all_goals first
    | (left; exact ⟨_, rfl⟩)
    | (right; rfl)

/-- C10: whenever either variant of `installLatestBuilds` returns without
error while dev-install is off, its final step has set `InstalledHash` to
`LatestHash`, so the up-to-date comparison run immediately afterwards
reports the install as current; on every error return the whole state —
in particular `InstalledHash` — is unchanged. -/
theorem installLatestBuilds_final_hash (st : DState) (mkOk : Bool)
    (envA : Nat → AssetOutcome) (envB : AsarEnv)
    (hdev : st.isDevInstall = false) :
    (((installLatestBuildsAssets st mkOk envA).2 = none →
        (installLatestBuildsAssets st mkOk envA).1.installedHash = st.latestHash ∧
        upToDate (installLatestBuildsAssets st mkOk envA).1.installedHash
          (installLatestBuildsAssets st mkOk envA).1.latestHash = true) ∧
      ((installLatestBuildsAssets st mkOk envA).2 ≠ none →
        (installLatestBuildsAssets st mkOk envA).1 = st)) ∧
    (((installLatestBuildsAsar st envB).2 = none →
        (installLatestBuildsAsar st envB).1.installedHash = st.latestHash ∧
        upToDate (installLatestBuildsAsar st envB).1.installedHash
          (installLatestBuildsAsar st envB).1.latestHash = true) ∧
      ((installLatestBuildsAsar st envB).2 ≠ none →
        (installLatestBuildsAsar st envB).1 = st)) := by
  constructor
  · rcases installAssets_result st mkOk envA hdev with ⟨e, he⟩ | hok
    · rw [he]
      exact ⟨fun h => by simp at h, fun _ => rfl⟩
    · rw [hok]
      exact ⟨fun _ => ⟨rfl, by simp [upToDate]⟩, fun h => by simp at h⟩
  · rcases installAsar_result st envB hdev with ⟨e, he⟩ | hok
    · rw [he]
      exact ⟨fun h => by simp at h, fun _ => rfl⟩
    · rw [hok]
      exact ⟨fun _ => ⟨rfl, by simp [upToDate]⟩, fun h => by simp at h⟩

/-- C10 witness: a release with no matching assets installs successfully
(empty loop) and ends with `InstalledHash = LatestHash`; the asar variant
on the same release fails (no `desktop.asar` link) and leaves the state
unchanged. -/
theorem installLatestBuilds_final_hash_witness :
    (installLatestBuildsAssets
        ⟨"None".data, "abc".data, false, ⟨[], [], []⟩⟩ true
        (fun _ => ⟨true, true, some 5, []⟩)).1.installedHash = "abc".data ∧
    (installLatestBuildsAsar
        ⟨"None".data, "abc".data, false, ⟨[], [], []⟩⟩
        ⟨true, true, some 5, []⟩).1 =
      ⟨"None".data, "abc".data, false, ⟨[], [], []⟩⟩ := by
  have h := installLatestBuilds_final_hash
    ⟨"None".data, "abc".data, false, ⟨[], [], []⟩⟩ true
    (fun _ => ⟨true, true, some 5, []⟩) ⟨true, true, some 5, []⟩ rfl
  exact ⟨(h.1.1 rfl).1, h.2.2 (by decide)⟩

/-- The run refuting C1 as stated: update available on linux, the staged
temp file is written, `os.Remove(ownExePath)` SUCCEEDS, and the final
rename of the temp file into place fails. -/
def c1Env : UpdateEnv :=
  ⟨true, "linux".data, true, false, false, false, false, false, false,
    false, false, true⟩

/-- C1 counterexample: in the run `c1Env` a step after staging fails
(`UpdateSelf` returns the replace error), yet no working executable
remains: the original was deleted, nothing is at the `.old` path, the
updated executable never reached the executable path, and the deferred
cleanup removed the temp file — the sequence ends with neither present. -/
theorem updateSelf_replace_failure_loses_executable :
    (UpdateSelf c1Env).err = some .replaceErr ∧
    (UpdateSelf c1Env).fs.origAtPath = false ∧
    (UpdateSelf c1Env).fs.origAtOld = false ∧
    (UpdateSelf c1Env).fs.updAtPath = false ∧
    (UpdateSelf c1Env).fs.tmpFile = false := by
  refine ⟨by decide, by decide, by decide, by decide, by decide⟩

/-- C1 (amended): the old-rename fallback guarantee holds in the case it
was built for — whenever the removal of the running executable fails, any
failure of the sequence leaves the original executable reachable, either
still at its own path (removal and fallback rename both failed) or at the
`.old` path (fallback rename succeeded).  When the removal succeeds and
the final rename then fails, the executable is lost and the returned
error directs the user to redownload manually. -/
theorem updateSelf_remove_failure_keeps_original (env : UpdateEnv)
    (hrm : env.removeFails = true) (herr : (UpdateSelf env).err ≠ none) :
    (UpdateSelf env).fs.origAtPath = true ∨
    (UpdateSelf env).fs.origAtOld = true := by
  have key : (UpdateSelf env).fs.origAtPath = true ∨
      (UpdateSelf env).fs.origAtOld = true ∨
      (UpdateSelf env).err = none := by
    simp only [UpdateSelf, hrm, Bool.not_true, Bool.false_eq_true, if_false]
    repeat' split
    all_goals simp [initialSelfFs]
  rcases key with h | h | h
  · exact Or.inl h
  · exact Or.inr h
  · exact absurd h herr

/-- C1 witness: removal of the running executable fails and the fallback
rename to `.old` also fails — the original is still reachable. -/
theorem updateSelf_remove_failure_keeps_original_witness :
    (UpdateSelf ⟨true, "linux".data, true, false, false, false, false,
        false, false, true, true, false⟩).fs.origAtPath = true ∨
    (UpdateSelf ⟨true, "linux".data, true, false, false, false, false,
        false, false, true, true, false⟩).fs.origAtOld = true := by
  exact updateSelf_remove_failure_keeps_original
    ⟨true, "linux".data, true, false, false, false, false, false, false,
      true, true, false⟩ rfl (by decide)

/-- The run refuting C2 as stated: one selected asset (`patcher.js`), the
server declares a content length of 100, the stream yields only 50 bytes
before closing, and every I/O step succeeds. -/
def c2St : DState :=
  ⟨"None".data, "abc".data, false, ⟨[], [], [⟨"patcher.js".data, "u".data⟩]⟩⟩

/-- Environment for the refuting run: declared length 100, 50 bytes read. -/
def c2Env : Nat → AssetOutcome :=
  fun _ => ⟨true, true, some 50, natToDecimal 100⟩

/-- C2 counterexample: the multi-asset `installLatestBuilds`
(src/github_downloader.go) never reads the `Content-Length` header: with a
declared length of 100 and only 50 bytes received it returns success — the
truncated download is silently treated as a successful install. -/
theorem installAssets_truncated_download_succeeds :
    (installLatestBuildsAssets c2St true c2Env).2 = none ∧
    (c2Env 0).contentLength = natToDecimal 100 ∧
    (c2Env 0).copyResult = some 50 ∧ (50 : Nat) ≠ 100 := by
  exact ⟨rfl, rfl, rfl, by decide⟩

/-- C2 (amended): the byte-count verification is performed by the
`desktop.asar` downloader variant (src/unnamed/part_000): with a declared
content length of `n` (the decimal header) and `m` bytes read before the
stream closed, the download succeeds exactly when `m = n`, and any
mismatch — in particular a truncated stream — fails with the distinct
length-mismatch error.  The multi-asset variant performs no such check. -/
theorem installAsar_length_verification (st : DState) (env : AsarEnv)
    (n m : Nat) (hdev : st.isDevInstall = false)
    (hurl : Str) (hasar : findAsarUrl st.releaseData.assets = some hurl)
    (hhttp : env.httpOk = true) (hopen : env.openOk = true)
    (hcopy : env.copyResult = some m)
    (hlen : env.contentLength = natToDecimal n) :
    ((installLatestBuildsAsar st env).2 = none ↔ m = n) ∧
    (m ≠ n →
      (installLatestBuildsAsar st env).2 = some .lengthMismatch) := by
  by_cases hmn : m = n
  · subst hmn
    simp [installLatestBuildsAsar, hdev, hasar, hhttp, hopen, hcopy, hlen]
  · have hne : (natToDecimal m == natToDecimal n) = false :=
      beq_eq_false_iff_ne.mpr (fun hEq => hmn (natToDecimal_inj m n hEq))
    simp [installLatestBuildsAsar, hdev, hasar, hhttp, hopen, hcopy, hlen,
      hne, hmn]

/-- C2 witness: declared length 120 and exactly 120 bytes read: the
`desktop.asar` download succeeds. -/
theorem installAsar_length_verification_witness :
    (installLatestBuildsAsar
        ⟨"None".data, "abc".data, false,
          ⟨[], [], [⟨"desktop.asar".data, "u".data⟩]⟩⟩
        ⟨true, true, some 120, natToDecimal 120⟩).2 = none := by
  exact (installAsar_length_verification
    ⟨"None".data, "abc".data, false,
      ⟨[], [], [⟨"desktop.asar".data, "u".data⟩]⟩⟩
    ⟨true, true, some 120, natToDecimal 120⟩ 120 120 rfl
    "u".data (by decide) rfl rfl rfl rfl).1.mpr rfl

/-- C4 witness: equal identifiers on both sides are reported as up to
date (not outdated). -/
theorem isOutdated_iff_eq_witness :
    isOutdated false "abc123".data "abc123".data = false := by
  exact (isOutdated_iff_eq_and_initial_outdated.1
    "abc123".data "abc123".data).mpr rfl
